import Mathlib

/-!
Verification of the superwheelie configuration-resolution and build-orchestration
core (Go packages `pkg/config` and `pkg/builder`), as a shallow embedding in Lean.

Strings are modelled as Lean `String`s; the Go standard-library string helpers
used by the source (`strings.TrimSpace`, `strings.Split` with a one-character
separator, `strings.HasPrefix`, `strings.Contains`, `strings.Join`,
`strings.Replace`/`ReplaceAll` with one-character operands, and the `%d` verb of
`fmt.Sscanf`) are re-implemented below over `List Char`.  Filesystem and
subprocess effects are modelled by passing their outcomes explicitly.
-/

namespace Superwheelie

/-! ### Go string primitives -/

/-- Unicode white space, as used by `strings.TrimSpace` (`unicode.IsSpace`). -/
def isGoSpace (c : Char) : Bool :=
  (9 ≤ c.toNat && c.toNat ≤ 13) || c.toNat = 32 || c.toNat = 0x85 || c.toNat = 0xA0 ||
  c.toNat = 0x1680 || (0x2000 ≤ c.toNat && c.toNat ≤ 0x200A) ||
  c.toNat = 0x2028 || c.toNat = 0x2029 || c.toNat = 0x202F || c.toNat = 0x205F ||
  c.toNat = 0x3000

/-- Drop leading white space (the left half of `strings.TrimSpace`). -/
def ltrimChars (cs : List Char) : List Char := cs.dropWhile isGoSpace

/-- Drop trailing white space (the right half of `strings.TrimSpace`). -/
def rtrimChars (cs : List Char) : List Char := (cs.reverse.dropWhile isGoSpace).reverse

/-- `strings.TrimSpace`. -/
def goTrim (s : String) : String := ⟨rtrimChars (ltrimChars s.data)⟩

/-- Worker for `goSplitChar`: accumulates the current field (reversed). -/
def splitCharAux (c : Char) : List Char → List Char → List (List Char)
  | [], acc => [acc.reverse]
  | x :: xs, acc =>
    if x = c then acc.reverse :: splitCharAux c xs []
    else splitCharAux c xs (x :: acc)

/-- `strings.Split` with a one-character separator (the only form the source
uses: on "," and on ".").  `goSplitChar c ""` is `[""]`, as in Go. -/
def goSplitChar (c : Char) (s : String) : List String :=
  (splitCharAux c s.data []).map (fun l => ⟨l⟩)

/-- `strings.HasPrefix`. -/
def goStartsWith (s pre : String) : Bool := pre.data.isPrefixOf s.data

/-- Worker for `goContains`: does `needle` occur as a contiguous run? -/
def containsList (needle : List Char) : List Char → Bool
  | [] => needle.isEmpty
  | x :: xs => needle.isPrefixOf (x :: xs) || containsList needle xs

/-- `strings.Contains`. -/
def goContains (s sub : String) : Bool := containsList sub.data s.data

/-- `strings.Join`. -/
def goJoin (sep : String) : List String → String
  | [] => ""
  | [p] => p
  | p :: rest => p ++ sep ++ goJoin sep rest

/-- `strings.ReplaceAll` with one-character old and new strings. -/
def goReplaceAllChar (oldc newc : Char) (s : String) : String :=
  ⟨s.data.map (fun c => if c = oldc then newc else c)⟩

/-- Worker for `goRemoveFirst`. -/
def removeFirstCharList (c : Char) : List Char → List Char
  | [] => []
  | x :: xs => if x = c then xs else x :: removeFirstCharList c xs

/-- `strings.Replace s old "" 1` with a one-character `old`: delete the first
occurrence of the character, if any. -/
def goRemoveFirst (c : Char) (s : String) : String := ⟨removeFirstCharList c s.data⟩

/-- Value of a run of decimal digits. -/
def digitsToNat (ds : List Char) : Nat :=
  ds.foldl (fun acc c => acc * 10 + (c.toNat - 48)) 0

/-- The `%d` verb of `fmt.Sscanf`, as `compareVersions` uses it: skip leading
white space, read an optional sign and a run of decimal digits.  When no digit
is present the scan fails and the destination keeps its zero value, so the
result is `0`. -/
def parseLeadingInt (s : String) : Int :=
  let cs := s.data.dropWhile isGoSpace
  match cs with
  | '-' :: rest =>
    let ds := rest.takeWhile Char.isDigit
    if ds.isEmpty then 0 else -(digitsToNat ds : Int)
  | '+' :: rest =>
    let ds := rest.takeWhile Char.isDigit
    if ds.isEmpty then 0 else (digitsToNat ds : Int)
  | other =>
    let ds := other.takeWhile Char.isDigit
    if ds.isEmpty then 0 else (digitsToNat ds : Int)

/-! ### pkg/config: version comparison and matching (validate.go) -/

/-- Tail of the `compareVersions` loop once the right list is exhausted:
each remaining left segment is compared against the zero value `0`. -/
def cmpRestLeft : List String → Int
  | [] => 0
  | a :: as =>
    let av := parseLeadingInt a
    if av < 0 then -1 else if 0 < av then 1 else cmpRestLeft as

/-- Tail of the `compareVersions` loop once the left list is exhausted. -/
def cmpRestRight : List String → Int
  | [] => 0
  | b :: bs =>
    let bv := parseLeadingInt b
    if 0 < bv then -1 else if bv < 0 then 1 else cmpRestRight bs

/-- The per-segment loop of `compareVersions` (validate.go 156-184): walk both
segment lists in step; a missing segment scans as the zero value `0`. -/
def cmpSegLists : List String → List String → Int
  | [], bs => cmpRestRight bs
  | a :: as, [] => cmpRestLeft (a :: as)
  | a :: as, b :: bs =>
    let av := parseLeadingInt a
    let bv := parseLeadingInt b
    if av < bv then -1 else if bv < av then 1 else cmpSegLists as bs

/-- `compareVersions` (validate.go): split on "." and compare segment-wise. -/
def compareVersions (a b : String) : Int :=
  cmpSegLists (goSplitChar '.' a) (goSplitChar '.' b)

/-- The operator table of `matchSingleSpec`, in the order the source tries
the prefixes. -/
def knownOps : List String := ["==", "!=", "<=", ">=", "<", ">", "~="]

/-- The operator-extraction loop of `matchSingleSpec` (validate.go 110-118):
the first table entry that is a prefix of `spec` becomes the operator, the
trimmed remainder the specifier version. -/
def findOp (spec : String) : Option (String × String) :=
  match knownOps.find? (fun op => goStartsWith spec op) with
  | some op => some (op, goTrim ⟨spec.data.drop op.length⟩)
  | none => none

/-- `matchSingleSpec` (validate.go 106-154). -/
def matchSingleSpec (version spec : String) : Except String Bool :=
  let spec := goTrim spec
  match findOp spec with
  | none => Except.error ("invalid specifier: " ++ spec)
  | some (op, specVer) =>
    let cmp := compareVersions version specVer
    if op = "==" then Except.ok (cmp == 0)
    else if op = "!=" then Except.ok (!(cmp == 0))
    else if op = "<" then Except.ok (cmp < 0)
    else if op = "<=" then Except.ok (cmp ≤ 0)
    else if op = ">" then Except.ok (0 < cmp)
    else if op = ">=" then Except.ok (0 ≤ cmp)
    else if op = "~=" then
      -- compatible release: >= the specifier version, plus a string-prefix check
      if cmp < 0 then Except.ok false
      else
        let parts := goSplitChar '.' specVer
        if 1 < parts.length then
          Except.ok (goStartsWith version (goJoin "." parts.dropLast))
        else Except.ok true
    else Except.error ("unsupported operator: " ++ op)

/-- The clause loop of `MatchesVersion` (validate.go 92-103): every
comma-separated clause must match; the first parse error aborts. -/
def matchParts (version : String) : List String → Except String Bool
  | [] => Except.ok true
  | p :: rest =>
    match matchSingleSpec version (goTrim p) with
    | Except.error e => Except.error e
    | Except.ok false => Except.ok false
    | Except.ok true => matchParts version rest

/-- `MatchesVersion` (validate.go 85-104). -/
def MatchesVersion (version specifier : String) : Except String Bool :=
  matchParts (goTrim version) (goSplitChar ',' (goTrim specifier))

/-! ### pkg/config: specifier validation (validate.go 9-11, 76-83)

`isValidPEP440` trims its input, rejects the empty string, and otherwise tests
the anchored regular expression
`^([<>=!~]+\s*[\d\w.*]+)(,\s*[<>=!~]+\s*[\d\w.*]+)*$`.
The comma appears in none of the three character classes, so a string is in
the regular language exactly when, split at every comma, the first field
matches `[<>=!~]+\s*[\d\w.*]+` and every later field matches
`\s*[<>=!~]+\s*[\d\w.*]+`; and because the operator class, `\s`, and the
version class are pairwise disjoint, a field matches exactly when its maximal
leading operator run is non-empty and, after white space, the non-empty rest
consists of version characters only.  The recognizer below implements that
decomposition. -/

/-- The regex class `[<>=!~]`. -/
def isOpChar (c : Char) : Bool := c = '<' || c = '>' || c = '=' || c = '!' || c = '~'

/-- The regex class `\s` of Go's regexp package: `[\t\n\f\r ]`. -/
def isRegexSpace (c : Char) : Bool :=
  c = ' ' || c = '\t' || c = '\n' || c = '\r' || c.toNat = 12

/-- The regex class `[\d\w.*]`: word characters (which already include the
digits), dot and star. -/
def isVerChar (c : Char) : Bool := c.isAlphanum || c = '_' || c = '.' || c = '*'

/-- Recognizer for one clause `[<>=!~]+\s*[\d\w.*]+`. -/
def clauseMatches (cs : List Char) : Bool :=
  let ops := cs.takeWhile isOpChar
  let rest := (cs.dropWhile isOpChar).dropWhile isRegexSpace
  !ops.isEmpty && !rest.isEmpty && rest.all isVerChar

/-- `isValidPEP440` (validate.go 76-83). -/
def isValidPEP440 (spec : String) : Bool :=
  let s := goTrim spec
  if s = "" then false
  else
    match goSplitChar ',' s with
    | [] => false
    | first :: rest =>
      clauseMatches first.data &&
        rest.all (fun p => clauseMatches (p.data.dropWhile isRegexSpace))

/-! ### pkg/config: data model (config.go, skips.go)

Go maps (`Env map[string]string`) are modelled as association lists of
key/value pairs; a Go map never holds two entries with the same key, which
appears below as `Nodup` hypotheses on the key lists where a proof needs it.
Map assignment `m[k] = v` is `envSet` (replace the entry if the key is
present, otherwise add it), and `envLookup` reads the map. -/

/-- `m[k] = v` on a Go map modelled as an association list. -/
def envSet : List (String × String) → String → String → List (String × String)
  | [], k, v => [(k, v)]
  | p :: rest, k, v => if p.1 = k then (k, v) :: rest else p :: envSet rest k v

/-- `for k, v := range entries { m[k] = v }`. -/
def envSetAll (m entries : List (String × String)) : List (String × String) :=
  entries.foldl (fun acc p => envSet acc p.1 p.2) m

/-- Read access `m[k]` on a Go map modelled as an association list. -/
def envLookup (m : List (String × String)) (k : String) : Option String :=
  (m.find? (fun p => p.1 = k)).map Prod.snd

/-- `Override` (config.go): a version-scoped configuration delta. -/
structure Override where
  Match : String
  SystemDeps : List String
  Env : List (String × String)
  Patches : List String
  Script : String
deriving DecidableEq, Repr

/-- `Version` (config.go): a tag-to-version mapping. -/
structure Version where
  Tag : String
  Version : String
deriving DecidableEq, Repr

/-- `Config` (config.go): a package build configuration. -/
structure Config where
  Repo : String
  VersionCount : Int
  Versions : List Version
  SystemDeps : List String
  Env : List (String × String)
  Patches : List String
  Script : String
  Overrides : List Override
deriving DecidableEq, Repr

/-- `Skip` (skips.go): a known build failure for a version/Python set. -/
structure Skip where
  Version : String
  Python : List String
  Reason : String
  Log : String
  Attempts : Int
deriving DecidableEq, Repr

/-- `Skips` (skips.go): the skip document. -/
structure Skips where
  Skips : List Skip
deriving DecidableEq, Repr

/-! ### pkg/config: skip persistence (parse.go 49-91)

The filesystem state of the skips file is modelled as `Option String` (`none`
when the file is absent, otherwise its contents); the only read failure
modelled is absence, and YAML encoding/decoding is an explicit parameter.
`SaveSkips` returns the state of the file after the call: `os.Remove` on an
absent file yields `IsNotExist`, which the source tolerates. -/

/-- `LoadSkips` (parse.go 50-65). -/
def LoadSkips (parseYaml : String → Except String Skips) (file : Option String) :
    Except String Skips :=
  match file with
  | none => Except.ok ⟨[]⟩
  | some data =>
    match parseYaml data with
    | Except.error e => Except.error ("parsing skips file: " ++ e)
    | Except.ok s => Except.ok s

/-- `SaveSkips` (parse.go 67-91); the result is the file state after the call. -/
def SaveSkips (marshalYaml : Skips → String) (skips : Skips) (file : Option String) :
    Except String (Option String) :=
  if skips.Skips.length = 0 then
    match file with
    | none => Except.ok none    -- os.Remove fails with IsNotExist, tolerated
    | some _ => Except.ok none  -- file removed
  else Except.ok (some (marshalYaml skips))

/-! ### pkg/builder: Python runtime helpers and wheel filename (python.go) -/

/-- `PythonCPVersion` (python.go): "cp" + the version with its first "."
removed (`strings.Replace(version, ".", "", 1)`). -/
def PythonCPVersion (version : String) : String := "cp" ++ goRemoveFirst '.' version

/-- `PythonABI` (python.go): for CPython 3.8+ the ABI tag equals the version
tag. -/
def PythonABI (version : String) : String := PythonCPVersion version

/-- `WheelFilename` (python.go 394-407). -/
def WheelFilename (packageName version pythonVersion platform : String) : String :=
  let normalized := goReplaceAllChar '.' '_' (goReplaceAllChar '-' '_' packageName)
  let normalizedVersion := goReplaceAllChar '-' '_' version
  let cp := PythonCPVersion pythonVersion
  let abi := PythonABI pythonVersion
  normalized ++ "-" ++ normalizedVersion ++ "-" ++ cp ++ "-" ++ abi ++ "-" ++
    platform ++ ".whl"

/-! ### pkg/builder: effective configuration (builder.go 307-355) -/

/-- `effectiveConfig` (builder.go): the merged configuration for one version. -/
structure effectiveConfig where
  SystemDeps : List String
  Env : List (String × String)
  Patches : List String
  Script : String
deriving DecidableEq, Repr

/-- The override-application block of `getEffectiveConfig` (builder.go
336-348): append the list fields, merge the env map with the override
winning, and replace the script only when the override's script is
non-empty. -/
def applyOverride (cfg : effectiveConfig) (o : Override) : effectiveConfig :=
  { SystemDeps := cfg.SystemDeps ++ o.SystemDeps
    Patches := cfg.Patches ++ o.Patches
    Env := envSetAll cfg.Env o.Env
    Script := if o.Script = "" then cfg.Script else o.Script }

/-- The initial copy of the base configuration made by `getEffectiveConfig`
(builder.go 317-327); `append([]string{}, xs...)` is a copy of `xs` and the
env copy loop rebuilds the base map entry by entry. -/
def baseEffective (cfg : Config) : effectiveConfig :=
  { SystemDeps := cfg.SystemDeps
    Env := envSetAll [] cfg.Env
    Patches := cfg.Patches
    Script := cfg.Script }

/-- The override loop of `getEffectiveConfig` (builder.go 330-352): an
override whose specifier errors or does not match is skipped (`continue`);
the first override that matches is applied and the loop stops (`break`). -/
def applyFirstOverride (version : String) (cfg : effectiveConfig) :
    List Override → effectiveConfig
  | [] => cfg
  | o :: rest =>
    match MatchesVersion version o.Match with
    | Except.ok true => applyOverride cfg o
    | _ => applyFirstOverride version cfg rest

/-- `getEffectiveConfig` (builder.go 316-355). -/
def getEffectiveConfig (cfg : Config) (version : String) : effectiveConfig :=
  applyFirstOverride version (baseEffective cfg) cfg.Overrides

/-! ### pkg/builder: wheel lookup and build orchestration (builder.go)

The build-output directory is modelled as the list of wheel basenames that
`filepath.Glob` would enumerate (in its sorted order); the `DistDir` path
prefix and `filepath.Base` cancel each other and are dropped.  `Glob`'s
`ErrBadPattern` branch is not modelled: the pattern built from a runtime
identifier contains no glob metacharacters.  Subprocess execution is modelled
by an explicit outcome per runtime. -/

/-- A basename matches the glob pattern `*-cp-cp-*.whl` (with `cp` the
runtime tag) exactly when it ends in ".whl" and `-cp-cp-` occurs in the part
before that extension: both stars match arbitrary character runs. -/
def wheelGlobMatch (cpVersion : String) (base : String) : Bool :=
  let mid := "-" ++ cpVersion ++ "-" ++ cpVersion ++ "-"
  let cs := base.data
  ".whl".data.isSuffixOf cs && containsList mid.data (cs.take (cs.length - 4))

/-- `findWheel` (builder.go 281-305): glob for wheels with the runtime tag,
prefer one whose name contains the version (dotted or underscored, delimited
by dashes), otherwise fall back to the first glob match. -/
def findWheel (dist : List String) (version python : String) : Except String String :=
  let cpVersion := "cp" ++ goRemoveFirst '.' python
  -- the glob result list, called matches in the source
  let found := dist.filter (wheelGlobMatch cpVersion)
  match found.find? (fun base =>
      goContains base ("-" ++ version ++ "-") ||
      goContains base ("-" ++ goReplaceAllChar '.' '_' version ++ "-")) with
  | some m => Except.ok m
  | none =>
    match found with
    | m :: _ => Except.ok m
    | [] => Except.error ("no wheel found for Python " ++ python)

/-- `BuildResult` (builder.go 33-52); `Error` is `none` when the Go field is
nil. -/
structure BuildResult where
  Version : String
  Python : String
  WheelPath : String
  Success : Bool
  Log : String
  Error : Option String
deriving DecidableEq, Repr

/-- Outcome of running one build command: whether it exited zero, its
captured output, and the listing of the output directory afterwards. -/
structure PyOutcome where
  exitOk : Bool
  log : String
  dist : List String
deriving DecidableEq, Repr

/-- `buildForPython` (builder.go 205-255), with the subprocess outcome
passed explicitly. -/
def buildForPython (version python : String) (cfg : effectiveConfig)
    (oc : PyOutcome) : BuildResult :=
  if !oc.exitOk then
    { Version := version, Python := python, WheelPath := "", Success := false
      Log := oc.log, Error := some "build failed" }
  else
    match findWheel oc.dist version python with
    | Except.error e =>
      { Version := version, Python := python, WheelPath := "", Success := false
        Log := oc.log ++ "\n" ++ e, Error := some e }
    | Except.ok w =>
      { Version := version, Python := python, WheelPath := w, Success := true
        Log := oc.log, Error := none }

/-- The external effects `Build` performs, with their outcomes: checking out
a tag, installing system dependencies, applying patches, and running one
build per runtime.  `cfg.Script` and the environment only influence the
build through these outcomes. -/
structure BuildWorld where
  checkout : String → Except String Unit
  installDeps : List String → Except String Unit
  applyPatches : List String → Except String Unit
  pyOutcome : String → PyOutcome

/-- The failure fan-out of `Build` (builder.go 152-161, 170-178, 184-192):
one failed result per requested Python version. -/
def failAll (ver : String) (pys : List String) (e : String) : List BuildResult :=
  pys.map (fun py =>
    { Version := ver, Python := py, WheelPath := "", Success := false
      Log := e, Error := some e })

/-- `Build` (builder.go 146-203). -/
def Build (w : BuildWorld) (cfg : Config) (version : Version)
    (pythonVersions : List String) : List BuildResult :=
  match w.checkout version.Tag with
  | Except.error e => failAll version.Version pythonVersions e
  | Except.ok _ =>
    let effectiveCfg := getEffectiveConfig cfg version.Version
    match w.installDeps effectiveCfg.SystemDeps with
    | Except.error e => failAll version.Version pythonVersions e
    | Except.ok _ =>
      match w.applyPatches effectiveCfg.Patches with
      | Except.error e => failAll version.Version pythonVersions e
      | Except.ok _ =>
        pythonVersions.map (fun py =>
          buildForPython version.Version py effectiveCfg (w.pyOutcome py))

/-! ### Small helpers used by the statements -/

/-- Left-biased choice on optional values: the merge policy "the override's
value wins on a key collision" at the level of map lookups. -/
def orElseO (a b : Option String) : Option String :=
  match a with
  | some x => some x
  | none => b

/-- Did a fallible operation take its error branch? -/
def isParseError {α : Type} (r : Except String α) : Bool :=
  match r with
  | Except.error _ => true
  | Except.ok _ => false

/-- The clause begins with one of the seven operator tokens the matcher
recognizes. -/
def hasKnownOp (s : String) : Bool := knownOps.any (fun op => goStartsWith s op)

/-! ### Definitions following the specification's words (for refinement
claims); each is compared against the corresponding definition translated
from the source. -/

/-- Spec §4.3: the numeric value of each dot-separated component
("segment-wise numeric comparison"; non-numeric suffixes do not participate
beyond the numeric prefix). -/
def versionSegments (s : String) : List Int := (goSplitChar '.' s).map parseLeadingInt

/-- Spec §4.3: "missing trailing segments are treated as zero" — pad the
segment list with zeros up to a common length. -/
def padZeros (n : Nat) (xs : List Int) : List Int := xs ++ List.replicate (n - xs.length) 0

/-- Component-wise comparison of two equally long segment lists, first
difference decides. -/
def lexCompare : List Int → List Int → Int
  | a :: as, b :: bs => if a < b then -1 else if b < a then 1 else lexCompare as bs
  | _, _ => 0

/-- Spec §4.3 comparison: compare the zero-padded segment lists
component-wise. -/
def specCompareVersions (a b : String) : Int :=
  let sa := versionSegments a
  let sb := versionSegments b
  let n := max sa.length sb.length
  lexCompare (padZeros n sa) (padZeros n sb)

/-- The specifier's "version prefix up to (but excluding) the last dotted
segment" (spec §4.3); for a one-segment version this is the empty string. -/
def specDottedStem (s : String) : String := goJoin "." (goSplitChar '.' s).dropLast

/-- Spec §4.3 compatible release: the candidate is `>=` the specifier version
and shares the specifier's version prefix (a string-prefix check, per §9). -/
def specCompatibleRelease (v s : String) : Bool :=
  decide (0 ≤ compareVersions v s) && goStartsWith v (specDottedStem s)

/-- Spec §6: `normalizedName` replaces every "-" and "." with "_". -/
def specNormalizeName (s : String) : String :=
  ⟨s.data.map (fun c => if c = '-' || c = '.' then '_' else c)⟩

/-- Spec §6: `normalizedVersion` replaces every "-" with "_". -/
def specNormalizeVersion (s : String) : String :=
  ⟨s.data.map (fun c => if c = '-' then '_' else c)⟩

/-- Spec §6: the runtime tag is the runtime identifier with its dot removed
and the fixed prefix "cp" prepended. -/
def specRuntimeTag (runtime : String) : String :=
  "cp" ++ ⟨runtime.data.filter (fun c => c != '.')⟩

/-- Spec §6 artifact filename convention, assembled from the pieces above. -/
def specWheelFilename (name version runtime platform : String) : String :=
  specNormalizeName name ++ "-" ++ specNormalizeVersion version ++ "-" ++
    specRuntimeTag runtime ++ "-" ++ specRuntimeTag runtime ++ "-" ++ platform ++ ".whl"

/-- The artifact-filename reading of claim C4: the file name contains the
normalized package name, the version (verbatim, or with "-" or "." replaced
by "_"), and the runtime ABI tag.  This is the weakest containment reading of
"encodes the expected package name, version, and runtime ABI tag". -/
def encodesExpectedArtifact (name version runtime file : String) : Bool :=
  goContains file (specNormalizeName name) &&
    (goContains file version ||
     goContains file (goReplaceAllChar '-' '_' version) ||
     goContains file (goReplaceAllChar '.' '_' version)) &&
    goContains file (PythonCPVersion runtime)

/-! ### Concrete fixtures used by witnesses and counterexamples (taken from
the repository's own tests and the spec's §8 examples) -/

/-- The base configuration of `TestGetEffectiveConfig`. -/
def exBaseConfig : Config :=
  { Repo := "https://github.com/test/pkg", VersionCount := 10
    Versions := [{ Tag := "v1.0.0", Version := "1.0.0" }]
    SystemDeps := ["libfoo"], Env := [("FOO", "bar")]
    Patches := ["base.patch"], Script := "", Overrides := [] }

/-- The first override of `TestGetEffectiveConfig`. -/
def exOverrideA : Override :=
  { Match := ">=2.0", SystemDeps := ["libfoo-new"]
    Env := [("FOO", "baz"), ("NEW", "val")], Patches := ["new.patch"], Script := "" }

/-- The second override of `TestGetEffectiveConfig`. -/
def exOverrideB : Override :=
  { Match := "<1.5", SystemDeps := [], Env := [], Patches := [], Script := "custom build" }

/-- An override whose `match` passes validation but cannot be parsed by the
matcher. -/
def exBadOverride : Override :=
  { Match := "~1.0", SystemDeps := ["bad-dep"], Env := [], Patches := [], Script := "" }

/-- The tag/version pair of `TestValidateConfig`. -/
def exVersion : Version := { Tag := "v1.0.0", Version := "1.0.0" }

/-- A world in which the checkout of every tag fails. -/
def exFailingWorld : BuildWorld :=
  { checkout := fun _ => Except.error "checking out v1.0.0: exit status 128"
    installDeps := fun _ => Except.ok ()
    applyPatches := fun _ => Except.ok ()
    pyOutcome := fun _ => { exitOk := true, log := "", dist := [] } }

/-- A dist directory containing one wheel of an unrelated package/version but
with the right runtime tag. -/
def exForeignDist : List String := ["other-2.0-cp310-cp310-linux_aarch64.whl"]

/-- A build-command outcome: exited zero, produced `exForeignDist`. -/
def exForeignOutcome : PyOutcome := { exitOk := true, log := "", dist := exForeignDist }

/-- An empty effective configuration. -/
def exEmptyEffective : effectiveConfig :=
  { SystemDeps := [], Env := [], Patches := [], Script := "" }

/-- A stub YAML decoder for `LoadSkips` witnesses. -/
def exParseStub : String → Except String Skips := fun _ => Except.ok ⟨[]⟩

/-! ### Helper lemmas about the override loop and the env-map model -/

/-- Overrides that error or do not match are skipped by the loop. -/
lemma applyFirstOverride_append_skip (v : String) (b : effectiveConfig) :
    ∀ (pre rest : List Override),
      (∀ o' ∈ pre, MatchesVersion v o'.Match ≠ Except.ok true) →
      applyFirstOverride v b (pre ++ rest) = applyFirstOverride v b rest := by
  intro pre
  induction pre with
  | nil => intro rest _; rfl
  | cons o' pre ih =>
    intro rest h
    have h1 : MatchesVersion v o'.Match ≠ Except.ok true := h o' (by simp)
    have h2 : ∀ o'' ∈ pre, MatchesVersion v o''.Match ≠ Except.ok true :=
      fun o'' hm => h o'' (by simp [hm])
    cases hmv : MatchesVersion v o'.Match with
    | error e =>
      simpa [applyFirstOverride, hmv] using ih rest h2
    | ok bb =>
      cases bb with
      | true => exact absurd hmv h1
      | false => simpa [applyFirstOverride, hmv] using ih rest h2

lemma envLookup_nil (k : String) : envLookup [] k = none := rfl

lemma envLookup_cons (a b k : String) (m : List (String × String)) :
    envLookup ((a, b) :: m) k = if a = k then some b else envLookup m k := by
  by_cases h : a = k <;> simp [envLookup, List.find?, h]

/-- Assignment changes exactly the assigned key. -/
lemma envLookup_envSet (k v k' : String) :
    ∀ m : List (String × String),
      envLookup (envSet m k v) k' = if k' = k then some v else envLookup m k'
  | [] => by
    by_cases h : k' = k
    · simp [envSet, envLookup_cons, envLookup_nil, h]
    · simp [envSet, envLookup_cons, envLookup_nil, h, Ne.symm h]
  | (a, b) :: m => by
    have hrec := envLookup_envSet k v k' m
    by_cases hak : a = k
    · subst hak
      rw [show envSet ((a, b) :: m) a v = (a, v) :: m from by simp [envSet]]
      rw [envLookup_cons, envLookup_cons]
      by_cases h : a = k'
      · simp [h]
      · simp [h, Ne.symm h]
    · rw [show envSet ((a, b) :: m) k v = (a, b) :: envSet m k v from by simp [envSet, hak]]
      rw [envLookup_cons, envLookup_cons, hrec]
      by_cases h1 : a = k'
      · subst h1
        simp [hak]
      · by_cases h2 : k' = k
        · rw [if_neg h1, if_pos h2, if_pos h2]
        · rw [if_neg h1, if_neg h2, if_neg h2, if_neg h1]

lemma envLookup_eq_none_of_not_mem (k : String) :
    ∀ m : List (String × String), k ∉ m.map Prod.fst → envLookup m k = none := by
  intro m
  induction m with
  | nil => intro _; rfl
  | cons p m ih =>
    obtain ⟨a, b⟩ := p
    intro h
    rw [List.map_cons] at h
    have h1 : ¬(a = k) := by
      intro hh
      exact h (by rw [hh]; exact List.mem_cons_self _ _)
    have h2 : k ∉ m.map Prod.fst := fun hh => h (List.mem_cons_of_mem _ hh)
    rw [envLookup_cons, if_neg h1, ih h2]

/-- Merging a duplicate-free entry list into a map: lookups prefer the merged
entries and fall back to the original map. -/
lemma envLookup_envSetAll (k : String) :
    ∀ (entries m : List (String × String)), (entries.map Prod.fst).Nodup →
      envLookup (envSetAll m entries) k = orElseO (envLookup entries k) (envLookup m k)
  | [], m, _ => by simp [envSetAll, orElseO, envLookup_nil]
  | (a, b) :: rest, m, hnd => by
    rw [List.map_cons] at hnd
    have hnd2 := List.nodup_cons.mp hnd
    have step : envSetAll m ((a, b) :: rest) = envSetAll (envSet m a b) rest := rfl
    rw [step, envLookup_envSetAll k rest (envSet m a b) hnd2.2, envLookup_cons,
      envLookup_envSet]
    by_cases hk : k = a
    · subst hk
      rw [envLookup_eq_none_of_not_mem k rest hnd2.1]
      simp [orElseO]
    · rw [if_neg hk, if_neg (fun hh => hk hh.symm)]

/-! ### C1: first matching override wins, later overrides never consulted -/

/-- C1: For every base configuration, ordered override list, and target
version, resolution applies exactly the first override whose specifier is
satisfied by the version (overrides before it are not satisfied), and the
result does not depend on the overrides after it. -/
theorem first_match_wins (base : Config) (pre post : List Override) (o : Override)
    (v : String)
    (hpre : ∀ o' ∈ pre, MatchesVersion v o'.Match ≠ Except.ok true)
    (ho : MatchesVersion v o.Match = Except.ok true) :
    getEffectiveConfig { base with Overrides := pre ++ o :: post } v
      = applyOverride (baseEffective base) o := by
  show applyFirstOverride v (baseEffective base) (pre ++ o :: post) = _
  rw [applyFirstOverride_append_skip v (baseEffective base) pre (o :: post) hpre]
  simp [applyFirstOverride, ho]

/-- Witness for C1, the first-match example of spec §8: version "2.1.0"
against overrides `[>=2.0, <1.5]` applies only the first override. -/
theorem first_match_wins_witness :
    getEffectiveConfig { exBaseConfig with Overrides := [] ++ exOverrideA :: [exOverrideB] } "2.1.0"
      = applyOverride (baseEffective exBaseConfig) exOverrideA :=
  first_match_wins exBaseConfig [] [exOverrideB] exOverrideA "2.1.0"
    (by intro o' h; simp at h) rfl

/-! ### C10: an override with an unparsable specifier is silently skipped -/

/-- C10: resolution of an override list headed by an override whose `match`
the matcher cannot parse equals resolution of the remaining overrides; since
`getEffectiveConfig` is a total function into `effectiveConfig`, a
configuration is always produced and no error is reported. -/
theorem unparsable_override_skipped (base : Config) (o : Override)
    (rest : List Override) (v e : String)
    (h : MatchesVersion v o.Match = Except.error e) :
    getEffectiveConfig { base with Overrides := o :: rest } v
      = getEffectiveConfig { base with Overrides := rest } v := by
  show applyFirstOverride v (baseEffective base) (o :: rest)
    = applyFirstOverride v (baseEffective base) rest
  simp [applyFirstOverride, h]

/-- Witness for C10: `~1.0` passes validation but errors in the matcher; the
resolution for "1.2.0" skips it and still applies the later `<1.5` override. -/
theorem unparsable_override_skipped_witness :
    getEffectiveConfig { exBaseConfig with Overrides := exBadOverride :: [exOverrideB] } "1.2.0"
      = getEffectiveConfig { exBaseConfig with Overrides := [exOverrideB] } "1.2.0" :=
  unparsable_override_skipped exBaseConfig exBadOverride [exOverrideB] "1.2.0"
    "invalid specifier: ~1.0" rfl

/-! ### C2: merge semantics of an applied override -/

/-- C2: when the single override matches the target version, the effective
configuration appends the override's `systemDeps` and `patches` after the
base entries, union-merges `env` with the override winning on collisions,
and replaces `script` only when the override's script is non-empty.  The
`Nodup` hypotheses state the Go-map invariant that keys are unique. -/
theorem override_merge_semantics (base : Config) (o : Override) (v : String)
    (ho : MatchesVersion v o.Match = Except.ok true)
    (hbase : (base.Env.map Prod.fst).Nodup)
    (hov : (o.Env.map Prod.fst).Nodup) :
    (getEffectiveConfig { base with Overrides := [o] } v).SystemDeps
        = base.SystemDeps ++ o.SystemDeps
    ∧ (getEffectiveConfig { base with Overrides := [o] } v).Patches
        = base.Patches ++ o.Patches
    ∧ (∀ k, envLookup (getEffectiveConfig { base with Overrides := [o] } v).Env k
        = orElseO (envLookup o.Env k) (envLookup base.Env k))
    ∧ (getEffectiveConfig { base with Overrides := [o] } v).Script
        = (if o.Script = "" then base.Script else o.Script) := by
  have hg : getEffectiveConfig { base with Overrides := [o] } v
      = applyOverride (baseEffective base) o := by
    show applyFirstOverride v (baseEffective base) [o] = _
    simp [applyFirstOverride, ho]
  rw [hg]
  refine ⟨rfl, rfl, ?_, rfl⟩
  intro k
  show envLookup (envSetAll (envSetAll [] base.Env) o.Env) k = _
  rw [envLookup_envSetAll k o.Env _ hov, envLookup_envSetAll k base.Env [] hbase]
  cases envLookup o.Env k <;> cases envLookup base.Env k <;> rfl

/-- Witness for C2, the merge example of spec §8: base
`system_deps=["libfoo"], env={FOO:bar}` with the matching `>=2.0` override
`system_deps=["libfoo-new"], env={FOO:baz, NEW:val}`. -/
theorem override_merge_semantics_witness :
    (getEffectiveConfig { exBaseConfig with Overrides := [exOverrideA] } "2.1.0").SystemDeps
        = ["libfoo", "libfoo-new"]
    ∧ envLookup (getEffectiveConfig { exBaseConfig with Overrides := [exOverrideA] } "2.1.0").Env "FOO"
        = some "baz"
    ∧ envLookup (getEffectiveConfig { exBaseConfig with Overrides := [exOverrideA] } "2.1.0").Env "NEW"
        = some "val"
    ∧ (getEffectiveConfig { exBaseConfig with Overrides := [exOverrideA] } "2.1.0").Script = "" := by
  obtain ⟨h1, h2, h3, h4⟩ :=
    override_merge_semantics exBaseConfig exOverrideA "2.1.0" rfl (by decide) (by decide)
  exact ⟨by rw [h1]; rfl, by rw [h3 "FOO"]; rfl, by rw [h3 "NEW"]; rfl, by rw [h4]; rfl⟩

/-! ### C7: a checkout failure fails every runtime without building -/

/-- C7: when the checkout of the version's tag fails, `Build` returns exactly
one failed result per requested runtime; the statement holds for every world,
so the per-runtime build outcomes (and the dependency and patch steps) are
never consulted. -/
theorem checkout_failure_fails_all (w : BuildWorld) (cfg : Config) (ver : Version)
    (pys : List String) (e : String) (h : w.checkout ver.Tag = Except.error e) :
    Build w cfg ver pys =
      pys.map (fun py =>
        { Version := ver.Version, Python := py, WheelPath := "", Success := false
          Log := e, Error := some e })
    ∧ (Build w cfg ver pys).length = pys.length
    ∧ ∀ r ∈ Build w cfg ver pys, r.Success = false := by
  have hb : Build w cfg ver pys = failAll ver.Version pys e := by
    unfold Build
    rw [h]
  refine ⟨hb, ?_, ?_⟩
  · rw [hb]; simp [failAll]
  · rw [hb]
    intro r hr
    simp [failAll] at hr
    obtain ⟨py, _, hre⟩ := hr
    rw [← hre]

/-- Witness for C7: a world whose checkout always fails yields two failed
results for the two requested runtimes. -/
theorem checkout_failure_fails_all_witness :
    (Build exFailingWorld exBaseConfig exVersion ["3.10", "3.11"]).length = 2
    ∧ ∀ r ∈ Build exFailingWorld exBaseConfig exVersion ["3.10", "3.11"], r.Success = false := by
  have h := checkout_failure_fails_all exFailingWorld exBaseConfig exVersion
    ["3.10", "3.11"] "checking out v1.0.0: exit status 128" rfl
  exact ⟨h.2.1, h.2.2⟩

/-! ### C8: skip-document persistence -/

/-- C8: loading from an absent file yields the empty skip list without an
error; saving an empty skip list removes the file (also when it is already
absent), and saving a non-empty list writes the marshalled document. -/
theorem skips_absent_empty_semantics :
    (∀ parseYaml : String → Except String Skips, LoadSkips parseYaml none = Except.ok ⟨[]⟩)
    ∧ (∀ (marshalYaml : Skips → String) (s : Skips) (file : Option String),
        SaveSkips marshalYaml s file =
          Except.ok (if s.Skips.length = 0 then none else some (marshalYaml s))) := by
  constructor
  · intro p; rfl
  · intro m s file
    unfold SaveSkips
    by_cases h : s.Skips.length = 0
    · simp [h]; cases file <;> rfl
    · simp [h]

/-! ### C9: artifact filename convention -/

/-- Replacing "-" by "_" and then "." by "_" equals the one-pass map of the
spec's normalization. -/
lemma replaceAll_dash_dot (s : String) :
    goReplaceAllChar '.' '_' (goReplaceAllChar '-' '_' s) = specNormalizeName s := by
  show String.mk ((s.data.map fun c => if c = '-' then '_' else c).map
        fun c => if c = '.' then '_' else c)
      = String.mk (s.data.map fun c => if c = '-' || c = '.' then '_' else c)
  rw [List.map_map]
  have hf : ((fun c => if c = '.' then '_' else c) ∘ fun c => if c = '-' then '_' else c)
      = fun c : Char => if c = '-' || c = '.' then '_' else c := by
    funext c
    by_cases h1 : c = '-'
    · subst h1; decide
    · by_cases h2 : c = '.'
      · subst h2; decide
      · simp [Function.comp, h1, h2]
  rw [hf]

/-- Deleting the first occurrence of a character that occurs at most once is
filtering it out. -/
lemma removeFirst_eq_filter (c : Char) :
    ∀ cs : List Char, cs.count c ≤ 1 → removeFirstCharList c cs = cs.filter (fun x => x != c)
  | [] => fun _ => rfl
  | x :: cs => by
    intro h
    by_cases hx : x = c
    · subst hx
      rw [List.count_cons_self] at h
      have hnotin : x ∉ cs := List.count_eq_zero.mp (by omega)
      have hfe : cs.filter (fun y => y != x) = cs :=
        List.filter_eq_self.mpr (fun y hy => by
          simp only [bne_iff_ne, ne_eq]
          intro hyx
          exact hnotin (hyx ▸ hy))
      simp [removeFirstCharList, List.filter_cons, hfe]
    · have hcx : c ≠ x := fun hh => hx hh.symm
      rw [List.count_cons_of_ne hcx] at h
      rw [show removeFirstCharList c (x :: cs) = x :: removeFirstCharList c cs from by
        simp [removeFirstCharList, hx]]
      rw [removeFirst_eq_filter c cs h, List.filter_cons]
      simp [hx]

/-- The source's runtime tag equals the spec's when the runtime identifier
has at most one dot. -/
lemma runtimeTag_eq (runtime : String) (h : runtime.data.count '.' ≤ 1) :
    "cp" ++ goRemoveFirst '.' runtime = specRuntimeTag runtime := by
  unfold goRemoveFirst specRuntimeTag
  rw [removeFirst_eq_filter '.' runtime.data h]

/-- C9: for every package name, version, runtime identifier (with its one
optional dot) and platform, `WheelFilename` produces exactly the spec §6
convention `{normalizedName}-{normalizedVersion}-{tag}-{tag}-{platform}.whl`;
in particular the zope.interface example of the spec. -/
theorem wheel_filename_convention (name version runtime platform : String)
    (h : runtime.data.count '.' ≤ 1) :
    WheelFilename name version runtime platform
        = specWheelFilename name version runtime platform
    ∧ WheelFilename "zope.interface" "6.0" "3.10" "linux_aarch64"
        = "zope_interface-6.0-cp310-cp310-linux_aarch64.whl" := by
  constructor
  · simp only [WheelFilename, specWheelFilename, PythonABI, PythonCPVersion]
    rw [replaceAll_dash_dot, runtimeTag_eq runtime h]
    rfl
  · decide

/-- Witness for C9 at the spec's example inputs. -/
theorem wheel_filename_convention_witness :
    WheelFilename "zope.interface" "6.0" "3.10" "linux_aarch64"
      = specWheelFilename "zope.interface" "6.0" "3.10" "linux_aarch64" :=
  (wheel_filename_convention "zope.interface" "6.0" "3.10" "linux_aarch64" (by decide)).1

/-! ### C4: success does not require an artifact that encodes name and
version

`findWheel` globs only for the runtime tag and falls back to the first
tag-matching wheel when none contains the version; the package name is never
consulted.  The counterexample below exhibits a successful build attempt
whose output directory contains no artifact encoding the expected package
name and version. -/

/-- Counterexample to C4: the build command exits zero, the only wheel in the
output directory belongs to another package and version, yet the attempt is
reported successful. -/
theorem artifact_search_counterexample :
    (buildForPython "1.0" "3.10" exEmptyEffective exForeignOutcome).Success = true
    ∧ exForeignDist.all (fun f => !(encodesExpectedArtifact "mypkg" "1.0" "3.10" f)) = true := by
  constructor
  · rfl
  · decide

/-- C4 as amended: a build attempt whose command exits zero is reported
successful exactly when the output directory contains some artifact matching
the runtime-tag glob `*-cp…-cp…-*.whl`; in particular, with no such artifact
the result has `Success = false`. -/
theorem build_success_iff_tagged_wheel (version python : String)
    (cf : effectiveConfig) (oc : PyOutcome) :
    (buildForPython version python cf oc).Success
      = (oc.exitOk &&
          !(oc.dist.filter (wheelGlobMatch ("cp" ++ goRemoveFirst '.' python))).isEmpty) := by
  unfold buildForPython
  cases he : oc.exitOk with
  | false => simp [he]
  | true =>
    simp only [he, Bool.not_true, Bool.false_eq_true, if_false, Bool.true_and]
    unfold findWheel
    cases hf : (oc.dist.filter (wheelGlobMatch ("cp" ++ goRemoveFirst '.' python))).find?
        (fun base => goContains base ("-" ++ version ++ "-") ||
          goContains base ("-" ++ goReplaceAllChar '.' '_' version ++ "-")) with
    | some m =>
      have hm := List.mem_of_find?_eq_some hf
      have hne : (oc.dist.filter (wheelGlobMatch ("cp" ++ goRemoveFirst '.' python))).isEmpty
          = false := by
        cases hl : oc.dist.filter (wheelGlobMatch ("cp" ++ goRemoveFirst '.' python)) with
        | nil => rw [hl] at hm; cases hm
        | cons a as => rfl
      simp [hf, hne]
    | none =>
      cases hl : oc.dist.filter (wheelGlobMatch ("cp" ++ goRemoveFirst '.' python)) with
      | nil => simp [hf, hl]
      | cons a as =>
        rw [hl] at hf
        simp [hl, hf]

/-! ### C6: version comparison is segment-wise with zero padding -/

lemma padZeros_eq_self (xs : List Int) : padZeros xs.length xs = xs := by
  simp [padZeros]

lemma padZeros_nil (n : Nat) : padZeros n ([] : List Int) = List.replicate n 0 := by
  simp [padZeros]

lemma padZeros_cons (n : Nat) (x : Int) (xs : List Int) :
    padZeros (n + 1) (x :: xs) = x :: padZeros n xs := by
  simp [padZeros, Nat.succ_sub_succ]

lemma cmpRestLeft_eq (as : List String) :
    cmpRestLeft as
      = lexCompare (as.map parseLeadingInt) (List.replicate as.length 0) := by
  induction as with
  | nil => rfl
  | cons a as ih =>
    simp only [cmpRestLeft, List.map_cons, List.length_cons, List.replicate, lexCompare, ih]

lemma cmpRestRight_eq (bs : List String) :
    cmpRestRight bs
      = lexCompare (List.replicate bs.length 0) (bs.map parseLeadingInt) := by
  induction bs with
  | nil => rfl
  | cons b bs ih =>
    simp only [cmpRestRight, List.map_cons, List.length_cons, List.replicate, lexCompare, ih]

/-- The Go comparison loop equals component-wise comparison of the
zero-padded parsed segment lists. -/
lemma cmpSegLists_eq : ∀ as bs : List String,
    cmpSegLists as bs
      = lexCompare (padZeros (max as.length bs.length) (as.map parseLeadingInt))
          (padZeros (max as.length bs.length) (bs.map parseLeadingInt))
  | [], bs => by
    have h1 : padZeros bs.length ([] : List Int) = List.replicate bs.length 0 :=
      padZeros_nil _
    have h2 : padZeros bs.length (bs.map parseLeadingInt) = bs.map parseLeadingInt := by
      rw [show bs.length = (bs.map parseLeadingInt).length from (List.length_map _ _).symm,
        padZeros_eq_self]
    simp [cmpSegLists, cmpRestRight_eq, h1, h2]
  | a :: as, [] => by
    have h1 : padZeros (as.length + 1) (parseLeadingInt a :: as.map parseLeadingInt)
        = parseLeadingInt a :: as.map parseLeadingInt := by
      rw [show as.length + 1 = (parseLeadingInt a :: as.map parseLeadingInt).length from by simp]
      exact padZeros_eq_self _
    have h2 : padZeros (as.length + 1) ([] : List Int) = List.replicate (as.length + 1) 0 :=
      padZeros_nil _
    simp [cmpSegLists, cmpRestLeft_eq, h1, h2]
  | a :: as, b :: bs => by
    have ih := cmpSegLists_eq as bs
    have hmax : max (a :: as).length (b :: bs).length = max as.length bs.length + 1 := by
      simp [Nat.succ_max_succ]
    rw [show cmpSegLists (a :: as) (b :: bs)
        = (if parseLeadingInt a < parseLeadingInt b then -1
           else if parseLeadingInt b < parseLeadingInt a then 1
           else cmpSegLists as bs) from rfl]
    rw [hmax, List.map_cons, List.map_cons, padZeros_cons, padZeros_cons]
    rw [show lexCompare (parseLeadingInt a :: padZeros (max as.length bs.length) (as.map parseLeadingInt))
          (parseLeadingInt b :: padZeros (max as.length bs.length) (bs.map parseLeadingInt))
        = (if parseLeadingInt a < parseLeadingInt b then -1
           else if parseLeadingInt b < parseLeadingInt a then 1
           else lexCompare (padZeros (max as.length bs.length) (as.map parseLeadingInt))
             (padZeros (max as.length bs.length) (bs.map parseLeadingInt))) from rfl]
    rw [ih]

/-- C6: `compareVersions` compares dot-separated components segment-wise
numerically, treating missing trailing segments as zero (it coincides with
the spec-side `specCompareVersions`); in particular `compare("1.0","1.0.0")`
is `0` and `compare("1.10.0","1.9.0")` is positive. -/
theorem compare_versions_segmentwise :
    (∀ a b : String, compareVersions a b = specCompareVersions a b)
    ∧ compareVersions "1.0" "1.0.0" = 0
    ∧ 0 < compareVersions "1.10.0" "1.9.0" := by
  refine ⟨?_, by decide, by decide⟩
  intro a b
  unfold compareVersions specCompareVersions versionSegments
  rw [cmpSegLists_eq]
  simp [List.length_map]

/-! ### C3: semantics of the compatible-release operator -/

lemma dropWhile_all_neg {p : Char → Bool} :
    ∀ {cs : List Char}, (∀ x ∈ cs, p x = false) → cs.dropWhile p = cs
  | [], _ => rfl
  | x :: cs, h => by
    simp [List.dropWhile, h x (List.mem_cons_self _ _),
      dropWhile_all_neg (fun y hy => h y (List.mem_cons_of_mem _ hy))]

/-- Trimming a string without white space is the identity. -/
lemma trim_of_all_not_space {s : String} (h : ∀ x ∈ s.data, isGoSpace x = false) :
    goTrim s = s := by
  unfold goTrim ltrimChars rtrimChars
  rw [dropWhile_all_neg h,
    dropWhile_all_neg (fun x hx => h x (List.mem_reverse.mp hx)),
    List.reverse_reverse]

lemma trim_tilde_eq (S : String) (h : ∀ x ∈ S.data, isGoSpace x = false) :
    goTrim ("~=" ++ S) = "~=" ++ S := by
  apply trim_of_all_not_space
  intro x hx
  rw [String.data_append] at hx
  rcases List.mem_append.mp hx with h1 | h2
  · simp only [List.mem_cons, List.not_mem_nil, or_false] at h1
    rcases h1 with rfl | rfl
    · decide
    · decide
  · exact h x h2

/-- Extracting the operator from a compatible-release clause. -/
lemma findOp_tilde (S : String) (h : ∀ x ∈ S.data, isGoSpace x = false) :
    findOp ("~=" ++ S) = some ("~=", S) := by
  have hdata : ("~=" ++ S).data = '~' :: '=' :: S.data := by
    rw [String.data_append]
    rfl
  have hfind : knownOps.find? (fun op => goStartsWith ("~=" ++ S) op) = some "~=" := by
    have hne : ∀ op ∈ ["==", "!=", "<=", ">=", "<", ">"],
        goStartsWith ("~=" ++ S) op = false := by
      intro op hop
      simp only [List.mem_cons, List.not_mem_nil, or_false] at hop
      rcases hop with rfl | rfl | rfl | rfl | rfl | rfl <;>
        simp [goStartsWith, hdata, List.isPrefixOf]
    rw [show knownOps = ["==", "!=", "<=", ">=", "<", ">", "~="] from rfl]
    rw [List.find?_cons_of_neg _ (by simp [hne "==" (by simp)]),
      List.find?_cons_of_neg _ (by simp [hne "!=" (by simp)]),
      List.find?_cons_of_neg _ (by simp [hne "<=" (by simp)]),
      List.find?_cons_of_neg _ (by simp [hne ">=" (by simp)]),
      List.find?_cons_of_neg _ (by simp [hne "<" (by simp)]),
      List.find?_cons_of_neg _ (by simp [hne ">" (by simp)]),
      List.find?_cons_of_pos _ (by simp [goStartsWith, hdata, List.isPrefixOf])]
  unfold findOp
  rw [hfind]
  show some ("~=", goTrim ⟨("~=" ++ S).data.drop "~=".length⟩) = some ("~=", S)
  have hdrop : ("~=" ++ S).data.drop "~=".length = S.data := by
    rw [hdata]
    rfl
  rw [hdrop]
  rw [show (⟨S.data⟩ : String) = S from rfl, trim_of_all_not_space h]

/-- C3: `~=S` matches `V` exactly when `V >= S` under the version comparison
and `V` has the string prefix formed by `S`'s dotted segments without the
last one; in particular the two example matches of the spec. -/
theorem compatible_release_semantics (V S : String)
    (hS : ∀ x ∈ S.data, isGoSpace x = false) :
    matchSingleSpec V ("~=" ++ S) = Except.ok (specCompatibleRelease V S)
    ∧ MatchesVersion "1.4.5" "~=1.4.2" = Except.ok true
    ∧ MatchesVersion "1.5.0" "~=1.4.2" = Except.ok false := by
  refine ⟨?_, rfl, rfl⟩
  simp only [matchSingleSpec, trim_tilde_eq S hS, findOp_tilde S hS]
  rw [if_neg (by decide), if_neg (by decide), if_neg (by decide), if_neg (by decide),
    if_neg (by decide), if_neg (by decide), if_pos (by decide)]
  by_cases hc : compareVersions V S < 0
  · rw [if_pos hc]
    unfold specCompatibleRelease
    rw [show decide (0 ≤ compareVersions V S) = false from by
      rw [decide_eq_false_iff_not]; omega]
    rw [Bool.false_and]
  · rw [if_neg hc]
    unfold specCompatibleRelease specDottedStem
    rw [show decide (0 ≤ compareVersions V S) = true from by
      rw [decide_eq_true_eq]; omega]
    rw [Bool.true_and]
    by_cases hp : 1 < (goSplitChar '.' S).length
    · rw [if_pos hp]
    · rw [if_neg hp]
      have hnil : (goSplitChar '.' S).dropLast = [] := by
        cases hsp : goSplitChar '.' S with
        | nil => rfl
        | cons x xs =>
          cases xs with
          | nil => rfl
          | cons y ys =>
            exfalso
            apply hp
            rw [hsp]
            simp
      rw [hnil, show goJoin "." ([] : List String) = "" from rfl]
      have hsw : goStartsWith V "" = true := by
        unfold goStartsWith
        rw [show ("" : String).data = [] from rfl]
        simp
      rw [hsw]

/-- Witness for C3 at the spec's example: `~=1.4.2` against candidate
`1.4.5`. -/
theorem compatible_release_semantics_witness :
    matchSingleSpec "1.4.5" ("~=" ++ "1.4.2")
      = Except.ok (specCompatibleRelease "1.4.5" "1.4.2") :=
  (compatible_release_semantics "1.4.5" "1.4.2" (by decide)).1

/-! ### C5: validation versus parseability of specifiers -/

/-- Counterexample to C5: the validation regular expression accepts any
non-empty run of operator characters, so `~1.0` passes validation, but the
matcher recognizes only the seven two-sided operators and fails to parse it. -/
theorem validation_accepts_unparsable :
    isValidPEP440 "~1.0" = true
    ∧ isParseError (MatchesVersion "1.0" "~1.0") = true := by
  constructor
  · decide
  · rfl

lemma ltrim_head_not : ∀ (cs : List Char) (h : Char) (t : List Char),
    ltrimChars cs = h :: t → isGoSpace h = false := by
  intro cs
  induction cs with
  | nil => intro h t hht; cases hht
  | cons a cs ih =>
    intro h t hht
    by_cases ha : isGoSpace a
    · rw [show ltrimChars (a :: cs) = ltrimChars cs from by
        simp [ltrimChars, List.dropWhile, ha]] at hht
      exact ih h t hht
    · rw [show ltrimChars (a :: cs) = a :: cs from by
        simp [ltrimChars, List.dropWhile, ha]] at hht
      cases hht
      simpa using ha

/-- Trimming is idempotent (the matcher trims each clause a second time). -/
lemma trimChars_idem (cs : List Char) :
    rtrimChars (ltrimChars (rtrimChars (ltrimChars cs))) = rtrimChars (ltrimChars cs) := by
  have h1 : ltrimChars (rtrimChars (ltrimChars cs)) = rtrimChars (ltrimChars cs) := by
    cases hT : rtrimChars (ltrimChars cs) with
    | nil => rfl
    | cons a T' =>
      obtain ⟨t, ht⟩ : rtrimChars (ltrimChars cs) <+: ltrimChars cs :=
        List.rdropWhile_prefix isGoSpace (ltrimChars cs)
      rw [hT] at ht
      have hhead : isGoSpace a = false := by
        apply ltrim_head_not cs a (T' ++ t)
        rw [← ht]
        rfl
      show ltrimChars (a :: T') = a :: T'
      simp [ltrimChars, List.dropWhile, hhead]
  have h2 : rtrimChars (rtrimChars (ltrimChars cs)) = rtrimChars (ltrimChars cs) :=
    List.rdropWhile_idempotent isGoSpace (ltrimChars cs)
  rw [h1, h2]

lemma goTrim_idem (s : String) : goTrim (goTrim s) = goTrim s := by
  show (⟨rtrimChars (ltrimChars (rtrimChars (ltrimChars s.data)))⟩ : String) = _
  rw [trimChars_idem]
  rfl

/-- The compatible-release branch never errors. -/
lemma tilde_branch_ok (V sv : String) :
    isParseError (if compareVersions V sv < 0 then Except.ok false
      else if 1 < (goSplitChar '.' sv).length then
        Except.ok (goStartsWith V (goJoin "." (goSplitChar '.' sv).dropLast))
      else Except.ok true) = false := by
  by_cases hc : compareVersions V sv < 0
  · simp [hc, isParseError]
  · by_cases hp : 1 < (goSplitChar '.' sv).length <;> simp [hc, hp, isParseError]

/-- A clause that begins with one of the seven recognized operators always
parses: `matchSingleSpec` takes an `ok` branch. -/
lemma matchSingleSpec_ok_of_known (V s : String) (hop : hasKnownOp (goTrim s) = true) :
    isParseError (matchSingleSpec V s) = false := by
  have hexists : ∃ op, knownOps.find? (fun o => goStartsWith (goTrim s) o) = some op := by
    rw [← Option.isSome_iff_exists, List.find?_isSome]
    simpa [hasKnownOp, List.any_eq_true] using hop
  obtain ⟨op, hfind⟩ := hexists
  have hmem : op ∈ knownOps := List.mem_of_find?_eq_some hfind
  simp only [matchSingleSpec, findOp, hfind]
  simp only [knownOps, List.mem_cons, List.not_mem_nil, or_false] at hmem
  rcases hmem with rfl | rfl | rfl | rfl | rfl | rfl | rfl
  · rfl
  · rfl
  · rfl
  · rfl
  · rfl
  · rfl
  · rw [if_neg (by decide), if_neg (by decide), if_neg (by decide), if_neg (by decide),
      if_neg (by decide), if_neg (by decide), if_pos (by decide)]
    exact tilde_branch_ok V _

/-- The clause loop never errors when every clause has a recognized operator. -/
lemma matchParts_no_error (V : String) :
    ∀ parts : List String, (∀ p ∈ parts, hasKnownOp (goTrim p) = true) →
      isParseError (matchParts V parts) = false
  | [] => fun _ => rfl
  | p :: rest => fun h => by
    have hp : hasKnownOp (goTrim (goTrim p)) = true := by
      rw [goTrim_idem]
      exact h p (List.mem_cons_self _ _)
    have hone := matchSingleSpec_ok_of_known V (goTrim p) hp
    cases hms : matchSingleSpec V (goTrim p) with
    | error e =>
      rw [hms] at hone
      cases hone
    | ok b =>
      cases b with
      | false => simp [matchParts, hms, isParseError]
      | true =>
        simp only [matchParts, hms]
        exact matchParts_no_error V rest (fun q hq => h q (List.mem_cons_of_mem _ hq))

/-- C5 as amended: a specifier accepted by validation parses during matching
provided each of its comma-separated clauses begins with one of the seven
recognized operator tokens; `MatchesVersion` then returns a boolean result
and never the parse-error branch. -/
theorem validated_known_op_specs_parse (spec version : String)
    (hval : isValidPEP440 spec = true)
    (hops : ∀ p ∈ goSplitChar ',' (goTrim spec), hasKnownOp (goTrim p) = true) :
    isParseError (MatchesVersion version spec) = false := by
  unfold MatchesVersion
  exact matchParts_no_error (goTrim version) _ hops

/-- Witness for the amended C5 at the spec's example range specifier. -/
theorem validated_known_op_specs_parse_witness :
    isParseError (MatchesVersion "1.5.0" ">=1.0,<2.0") = false :=
  validated_known_op_specs_parse ">=1.0,<2.0" "1.5.0" (by decide) (by decide)

end Superwheelie
